import Mathlib

/-!
Verification of the disk-interface layer (src/disk_interface.cc).

Paths are modelled as `List Char`. The set of path-separator characters
(the C++ `kPathSeparators`, built from the platform macro `DIR_SEP`) is a
parameter `seps : List Char`; `posixSeps` instantiates it for the POSIX
build. The abstract `DiskInterface` capability is a `Disk` structure whose
`stat` and `makeDir` fields stand for the virtual `Stat` / `MakeDir`
operations, with an explicit state `σ`; `MakeDirs` additionally records a
trace of the `Stat` and `MakeDir` calls it performs, so claims about which
calls happen (and in what order) are statable. The OS-backed primitives of
`RealDiskInterface` take the raw OS outcome (success with a value, or an
errno / error code) as an explicit input, and return the emitted diagnostic
messages as a list.
-/

def posixSeps : List Char := ['/']

/-- Index of the last character of `path` that belongs to `seps`
(C++ `path.find_last_of(kPathSeparators)`; `none` is `npos`). -/
def find_last_of (seps : List Char) : List Char → Option Nat
  | [] => none
  | c :: rest =>
    match find_last_of seps rest with
    | some i => some (i + 1)
    | none => if c ∈ seps then some 0 else none

/-- The `while (slash_pos > 0 && ...) --slash_pos;` loop of `DirName`:
walk `slash_pos` left over a run of separator characters. -/
def trimSepRun (seps : List Char) (path : List Char) : Nat → Nat
  | 0 => 0
  | n + 1 => if path.getD n ' ' ∈ seps then trimSepRun seps path n else n + 1

/-- `DirName` from disk_interface.cc: the prefix of `path` before the last
run of separators, or the empty string when `path` has no separator. -/
def DirName (seps : List Char) (path : List Char) : List Char :=
  match find_last_of seps path with
  | none => []
  | some slash_pos => path.take (trimSepRun seps path slash_pos)

theorem find_last_of_lt {seps : List Char} :
    ∀ {path : List Char} {i : Nat}, find_last_of seps path = some i → i < path.length := by
  intro path
  induction path with
  | nil => intro i h; simp [find_last_of] at h
  | cons c rest ih =>
    intro i h
    rw [find_last_of] at h
    cases hr : find_last_of seps rest with
    | some j =>
      rw [hr] at h
      cases h
      have := ih hr
      simp only [List.length_cons]
      omega
    | none =>
      rw [hr] at h
      by_cases hc : c ∈ seps
      · simp [hc] at h
        cases h
        simp
      · simp [hc] at h

theorem trimSepRun_le (seps : List Char) (path : List Char) :
    ∀ n, trimSepRun seps path n ≤ n := by
  intro n
  induction n with
  | zero => simp [trimSepRun]
  | succ m ih =>
    rw [trimSepRun]
    split
    · omega
    · exact Nat.le_refl _

theorem DirName_length_lt (seps : List Char) (path : List Char)
    (h : DirName seps path ≠ []) : (DirName seps path).length < path.length := by
  cases hf : find_last_of seps path with
  | none => exact absurd (by rw [DirName, hf]) h
  | some i =>
    have hD : DirName seps path = path.take (trimSepRun seps path i) := by
      rw [DirName, hf]
    rw [hD]
    have hi : i < path.length := find_last_of_lt hf
    have ht : trimSepRun seps path i ≤ i := trimSepRun_le seps path i
    simp only [List.length_take]
    omega

/-- A `Stat` or `MakeDir` call performed by `MakeDirs`, with its argument. -/
inductive Event where
  | statEv (dir : List Char)
  | mkdirEv (dir : List Char)
deriving DecidableEq

/-- The abstract `DiskInterface` capability used by `MakeDirs`: `stat`
returns the tri-state timestamp, `makeDir` creates one level and reports
success, possibly changing the disk state `σ`. -/
structure Disk (σ : Type) where
  stat : σ → List Char → Int
  makeDir : σ → List Char → σ × Bool

/-- `DiskInterface::MakeDirs`, instrumented with the trace of the `Stat`
and `MakeDir` calls it performs, in order. -/
def MakeDirs {σ : Type} (seps : List Char) (d : Disk σ) (s : σ) (path : List Char) :
    σ × Bool × List Event :=
  if h : DirName seps path = [] then
    (s, true, [])
  else if d.stat s (DirName seps path) < 0 then
    (s, false, [Event.statEv (DirName seps path)])
  else if 0 < d.stat s (DirName seps path) then
    (s, true, [Event.statEv (DirName seps path)])
  else
    let r := MakeDirs seps d s (DirName seps path)
    if r.2.1 = false then
      (r.1, false, Event.statEv (DirName seps path) :: r.2.2)
    else
      let m := d.makeDir r.1 (DirName seps path)
      (m.1, m.2, Event.statEv (DirName seps path) :: r.2.2 ++ [Event.mkdirEv (DirName seps path)])
termination_by path.length
decreasing_by exact DirName_length_lt seps path h

/-- The ancestor-directory chain of `path`, root-to-leaf: all the
directories `MakeDirs` is responsible for, deepest last. -/
def ancestors (seps : List Char) (path : List Char) : List (List Char) :=
  if h : DirName seps path = [] then []
  else ancestors seps (DirName seps path) ++ [DirName seps path]
termination_by path.length
decreasing_by exact DirName_length_lt seps path h

/-- The directories passed to `MakeDir` calls in a trace, in order. -/
def mkdirEvents (tr : List Event) : List (List Char) :=
  tr.filterMap (fun e => match e with
    | Event.mkdirEv p => some p
    | Event.statEv _ => none)

/-- A disk on which nothing exists: `Stat` always reports absence and
`MakeDir` always succeeds. -/
def absentDisk : Disk Unit :=
  ⟨fun _ _ => 0, fun _ _ => ((), true)⟩

/-- An in-memory model disk: the state is the list of directories that
exist, `Stat` reports timestamp 1 for an existing directory and 0
otherwise, `MakeDir` adds the directory and succeeds. -/
def listDisk : Disk (List (List Char)) :=
  ⟨fun s p => if p ∈ s then 1 else 0, fun s p => (p :: s, true)⟩

theorem MakeDirs_dirEmpty {σ : Type} (seps : List Char) (d : Disk σ) (s : σ)
    (path : List Char) (hd : DirName seps path = []) :
    MakeDirs seps d s path = (s, true, []) := by
  rw [MakeDirs]
  simp [hd]

theorem MakeDirs_statNeg {σ : Type} (seps : List Char) (d : Disk σ) (s : σ)
    (path : List Char) (hd : DirName seps path ≠ [])
    (hs : d.stat s (DirName seps path) < 0) :
    MakeDirs seps d s path = (s, false, [Event.statEv (DirName seps path)]) := by
  rw [MakeDirs]
  simp [hd, hs]

theorem MakeDirs_statPos {σ : Type} (seps : List Char) (d : Disk σ) (s : σ)
    (path : List Char) (hd : DirName seps path ≠ [])
    (hs : 0 < d.stat s (DirName seps path)) :
    MakeDirs seps d s path = (s, true, [Event.statEv (DirName seps path)]) := by
  rw [MakeDirs]
  have hs' : ¬ d.stat s (DirName seps path) < 0 := by omega
  simp [hd, hs, hs']

theorem MakeDirs_statZero_fail {σ : Type} (seps : List Char) (d : Disk σ) (s : σ)
    (path : List Char) (hd : DirName seps path ≠ [])
    (hz : d.stat s (DirName seps path) = 0)
    (hf : (MakeDirs seps d s (DirName seps path)).2.1 = false) :
    MakeDirs seps d s path =
      ((MakeDirs seps d s (DirName seps path)).1, false,
        Event.statEv (DirName seps path) :: (MakeDirs seps d s (DirName seps path)).2.2) := by
  rw [MakeDirs]
  simp [hd, hz, hf]

theorem MakeDirs_statZero_ok {σ : Type} (seps : List Char) (d : Disk σ) (s : σ)
    (path : List Char) (hd : DirName seps path ≠ [])
    (hz : d.stat s (DirName seps path) = 0)
    (ho : (MakeDirs seps d s (DirName seps path)).2.1 = true) :
    MakeDirs seps d s path =
      ((d.makeDir (MakeDirs seps d s (DirName seps path)).1 (DirName seps path)).1,
        (d.makeDir (MakeDirs seps d s (DirName seps path)).1 (DirName seps path)).2,
        Event.statEv (DirName seps path) ::
          (MakeDirs seps d s (DirName seps path)).2.2 ++
            [Event.mkdirEv (DirName seps path)]) := by
  rw [MakeDirs]
  simp [hd, hz, ho]

theorem makeDirs_absent (seps : List Char) (path : List Char) :
    (MakeDirs seps absentDisk () path).2.1 = true ∧
      mkdirEvents (MakeDirs seps absentDisk () path).2.2 = ancestors seps path := by
  by_cases hd : DirName seps path = []
  · rw [MakeDirs_dirEmpty seps absentDisk () path hd, ancestors]
    simp [hd, mkdirEvents]
  · have ih := makeDirs_absent seps (DirName seps path)
    have hz : absentDisk.stat () (DirName seps path) = 0 := rfl
    rw [MakeDirs_statZero_ok seps absentDisk () path hd hz ih.1, ancestors]
    refine ⟨rfl, ?_⟩
    simp only [hd, dite_false]
    simp [mkdirEvents] at ih ⊢
    exact ih.2
termination_by path.length
decreasing_by exact DirName_length_lt seps path hd

theorem listDisk_makeDirs_mem (seps : List Char) (s : List (List Char)) (path : List Char)
    (hd : DirName seps path ≠ [])
    (h : (MakeDirs seps listDisk s path).2.1 = true) :
    DirName seps path ∈ (MakeDirs seps listDisk s path).1 := by
  by_cases hm : DirName seps path ∈ s
  · have hs : 0 < listDisk.stat s (DirName seps path) := by simp [listDisk, hm]
    rw [MakeDirs_statPos seps listDisk s path hd hs]
    exact hm
  · have hz : listDisk.stat s (DirName seps path) = 0 := by simp [listDisk, hm]
    cases hb : (MakeDirs seps listDisk s (DirName seps path)).2.1 with
    | false =>
      rw [MakeDirs_statZero_fail seps listDisk s path hd hz hb] at h
      simp at h
    | true =>
      rw [MakeDirs_statZero_ok seps listDisk s path hd hz hb]
      simp [listDisk]

/-- A diagnostic message emitted to the external error sink (`Error(...)`),
tagged by the call site that emits it, with the offending path. -/
inductive Diag where
  | statTooLong (path : List Char)
  | statOsFail (path : List Char)
  | writeOpenFail (path : List Char)
  | writeShortFail (path : List Char)
  | writeCloseFail (path : List Char)
  | mkdirFail (path : List Char)
  | removeFail (path : List Char)
deriving DecidableEq

/-- POSIX `ENOENT`. -/
def ENOENT : Nat := 2

/-- Outcome of the underlying OS metadata call: success with the (already
converted) modification time, or failure with an error code. -/
inductive StatOs where
  | ok (mtime : Int)
  | err (code : Nat)
deriving DecidableEq

namespace RealDiskInterface

/-- `RealDiskInterface::Stat`, POSIX branch: the `stat(2)` outcome is the
explicit input `os`; returns the timestamp and the emitted diagnostics. -/
def Stat (path : List Char) (os : StatOs) : Int × List Diag :=
  match os with
  | StatOs.err e =>
    if e = ENOENT then (0, [])
    else (-1, [Diag.statOsFail path])
  | StatOs.ok m => (m, [])

/-- Windows `MAX_PATH`. -/
def MAX_PATH : Nat := 260

/-- Windows `ERROR_FILE_NOT_FOUND`. -/
def ERROR_FILE_NOT_FOUND : Nat := 2

/-- Windows `ERROR_PATH_NOT_FOUND`. -/
def ERROR_PATH_NOT_FOUND : Nat := 3

/-- `RealDiskInterface::Stat`, Windows branch: returns the timestamp, the
emitted diagnostics, and whether the OS call (`GetFileAttributesEx`) was
invoked at all. -/
def StatWin (path : List Char) (os : StatOs) : Int × List Diag × Bool :=
  if path ≠ [] ∧ path.headD ' ' ≠ '\\' ∧ MAX_PATH < path.length then
    (-1, [Diag.statTooLong path], false)
  else
    match os with
    | StatOs.err e =>
      if e = ERROR_FILE_NOT_FOUND ∨ e = ERROR_PATH_NOT_FOUND then (0, [], true)
      else (-1, [Diag.statOsFail path], true)
    | StatOs.ok ts => (ts, [], true)

/-- `RealDiskInterface::WriteFile`: the outcomes of the three OS steps are
explicit inputs — `openOk` (did `fopen` return non-NULL), `written` (the
count `fwrite` reports), `closeOk` (did `fclose` succeed). -/
def WriteFile (path : List Char) (contents : List Char)
    (openOk : Bool) (written : Nat) (closeOk : Bool) : Bool × List Diag :=
  if openOk = false then (false, [Diag.writeOpenFail path])
  else if written < contents.length then (false, [Diag.writeShortFail path])
  else if closeOk = false then (false, [Diag.writeCloseFail path])
  else (true, [])

/-- Outcome of the single-level `::MakeDir` OS shim. -/
inductive MkdirOs where
  | ok
  | err (errno : Nat)
deriving DecidableEq

/-- `RealDiskInterface::MakeDir`. -/
def MakeDir (path : List Char) (os : MkdirOs) : Bool × List Diag :=
  match os with
  | MkdirOs.ok => (true, [])
  | MkdirOs.err _ => (false, [Diag.mkdirFail path])

/-- Outcome of the raw full-file-read shim. -/
inductive ReadOs where
  | ok (contents : List Char)
  | err (errno : Nat) (msg : List Char)
deriving DecidableEq

/-- Modelled from the spec: the raw full-file-read shim (`::ReadFile`, a
repository file not under src/) "returns either the content or a negated
error code", populating the error output on failure; result is
(contents, return code, error output). -/
def readPrim (os : ReadOs) : List Char × Int × List Char :=
  match os with
  | ReadOs.ok c => (c, 0, [])
  | ReadOs.err e msg => ([], -(e : Int), msg)

/-- `RealDiskInterface::ReadFile`: delegate to the shim, and if the return
code is `-ENOENT`, clear the error output; returns (contents, error
output). -/
def ReadFile (path : List Char) (binary : Bool) (os : ReadOs) : List Char × List Char :=
  if (readPrim os).2.1 = -(ENOENT : Int) then ((readPrim os).1, [])
  else ((readPrim os).1, (readPrim os).2.2)

/-- Outcome of the `remove(3)` OS call. -/
inductive RemoveOs where
  | ok
  | err (errno : Nat)
deriving DecidableEq

/-- `RealDiskInterface::RemoveFile`. -/
def RemoveFile (path : List Char) (os : RemoveOs) : Int × List Diag :=
  match os with
  | RemoveOs.ok => (0, [])
  | RemoveOs.err e =>
    if e = ENOENT then (1, [])
    else (-1, [Diag.removeFail path])

end RealDiskInterface

theorem find_last_of_eq_none (seps : List Char) :
    ∀ path : List Char, (∀ c ∈ path, c ∉ seps) → find_last_of seps path = none := by
  intro path h
  induction path with
  | nil => rfl
  | cons c rest ih =>
    rw [find_last_of, ih (fun x hx => h x (List.mem_cons_of_mem c hx))]
    simp [h c (List.mem_cons_self c rest)]

/-- C1 (amended): for every path whose derived parent directory (`DirName`)
is non-empty, `MakeDirs` calls `Stat` on that parent: a negative result
makes it return failure immediately; a positive result makes it return
success with no `MakeDir` call; a zero result makes it first recurse on the
parent and then call `MakeDir` on it, propagating failure of either step;
and on a disk where no ancestor exists, every ancestor directory is created
in root-to-leaf order and the call succeeds. -/
theorem makeDirs_recursion_spec {σ : Type} (seps : List Char) (d : Disk σ) (s : σ)
    (path : List Char) (hd : DirName seps path ≠ []) :
    (d.stat s (DirName seps path) < 0 →
      MakeDirs seps d s path = (s, false, [Event.statEv (DirName seps path)])) ∧
    (0 < d.stat s (DirName seps path) →
      MakeDirs seps d s path = (s, true, [Event.statEv (DirName seps path)])) ∧
    (d.stat s (DirName seps path) = 0 →
      (MakeDirs seps d s (DirName seps path)).2.1 = false →
      MakeDirs seps d s path =
        ((MakeDirs seps d s (DirName seps path)).1, false,
          Event.statEv (DirName seps path) :: (MakeDirs seps d s (DirName seps path)).2.2)) ∧
    (d.stat s (DirName seps path) = 0 →
      (MakeDirs seps d s (DirName seps path)).2.1 = true →
      MakeDirs seps d s path =
        ((d.makeDir (MakeDirs seps d s (DirName seps path)).1 (DirName seps path)).1,
          (d.makeDir (MakeDirs seps d s (DirName seps path)).1 (DirName seps path)).2,
          Event.statEv (DirName seps path) ::
            (MakeDirs seps d s (DirName seps path)).2.2 ++
              [Event.mkdirEv (DirName seps path)])) ∧
    (∀ q : List Char, (MakeDirs seps absentDisk () q).2.1 = true ∧
      mkdirEvents (MakeDirs seps absentDisk () q).2.2 = ancestors seps q) :=
  ⟨MakeDirs_statNeg seps d s path hd, MakeDirs_statPos seps d s path hd,
    MakeDirs_statZero_fail seps d s path hd, MakeDirs_statZero_ok seps d s path hd,
    fun q => makeDirs_absent seps q⟩

/-- Witness for `makeDirs_recursion_spec` at the path "a/b". -/
theorem makeDirs_recursion_spec_witness :
    (MakeDirs posixSeps absentDisk () ['a', '/', 'b', '/', 'c']).2.1 = true ∧
      mkdirEvents (MakeDirs posixSeps absentDisk () ['a', '/', 'b', '/', 'c']).2.2 =
        ancestors posixSeps ['a', '/', 'b', '/', 'c'] :=
  (makeDirs_recursion_spec posixSeps listDisk [] ['a', '/', 'b'] (by decide)).2.2.2.2
    ['a', '/', 'b', '/', 'c']

/-- C1 counterexample: "/a" contains a separator, yet `MakeDirs` performs
no `Stat` call at all (its call trace is empty), because the derived parent
is the empty string: the claim's premise "path containing a separator" is
not enough to guarantee a `Stat` call. -/
theorem makeDirs_sep_no_stat_cex :
    ('/' ∈ posixSeps ∧ '/' ∈ ['/', 'a']) ∧
      MakeDirs posixSeps listDisk [] ['/', 'a'] = ([], true, []) :=
  ⟨by decide, MakeDirs_dirEmpty posixSeps listDisk [] ['/', 'a'] (by decide)⟩

/-- C4: when the derived parent is empty or its `Stat` is positive,
`MakeDirs` performs zero `MakeDir` calls, leaves the disk state unchanged
and returns success; and on the model disk, a second identical `MakeDirs`
call immediately after a successful one returns success with no `MakeDir`
calls and no state change. -/
theorem makeDirs_idempotent {σ : Type} (seps : List Char) (d : Disk σ) (s : σ)
    (path : List Char) :
    (DirName seps path = [] ∨ 0 < d.stat s (DirName seps path) →
      (MakeDirs seps d s path).1 = s ∧ (MakeDirs seps d s path).2.1 = true ∧
        mkdirEvents (MakeDirs seps d s path).2.2 = []) ∧
    (∀ t : List (List Char), (MakeDirs seps listDisk t path).2.1 = true →
      (MakeDirs seps listDisk (MakeDirs seps listDisk t path).1 path).1 =
          (MakeDirs seps listDisk t path).1 ∧
        (MakeDirs seps listDisk (MakeDirs seps listDisk t path).1 path).2.1 = true ∧
        mkdirEvents (MakeDirs seps listDisk (MakeDirs seps listDisk t path).1 path).2.2 = []) := by
  constructor
  · intro h
    by_cases hd : DirName seps path = []
    · rw [MakeDirs_dirEmpty seps d s path hd]
      simp [mkdirEvents]
    · cases h with
      | inl he => exact absurd he hd
      | inr hs =>
        rw [MakeDirs_statPos seps d s path hd hs]
        simp [mkdirEvents]
  · intro t ht
    by_cases hd : DirName seps path = []
    · rw [MakeDirs_dirEmpty seps listDisk (MakeDirs seps listDisk t path).1 path hd]
      simp [mkdirEvents]
    · have hm := listDisk_makeDirs_mem seps t path hd ht
      have hs : 0 < listDisk.stat (MakeDirs seps listDisk t path).1 (DirName seps path) := by
        show 0 <
          if DirName seps path ∈ (MakeDirs seps listDisk t path).1 then (1 : Int) else 0
        simp [hm]
      rw [MakeDirs_statPos seps listDisk (MakeDirs seps listDisk t path).1 path hd hs]
      simp [mkdirEvents]

/-- Witness for `makeDirs_idempotent`: on the model disk, after
`MakeDirs "a/b"` succeeds from the empty state, a second identical call
succeeds with no `MakeDir` calls. -/
theorem makeDirs_idempotent_witness :
    (MakeDirs posixSeps listDisk (MakeDirs posixSeps listDisk [] ['a', '/', 'b']).1
        ['a', '/', 'b']).2.1 = true ∧
      mkdirEvents (MakeDirs posixSeps listDisk (MakeDirs posixSeps listDisk [] ['a', '/', 'b']).1
        ['a', '/', 'b']).2.2 = [] := by
  have e1 : MakeDirs posixSeps listDisk [] ['a'] = ([], true, []) :=
    MakeDirs_dirEmpty posixSeps listDisk [] ['a'] (by decide)
  have h1 : DirName posixSeps ['a', '/', 'b'] = ['a'] := by decide
  have hfull : MakeDirs posixSeps listDisk [] ['a', '/', 'b'] =
      ([['a']], true, [Event.statEv ['a'], Event.mkdirEv ['a']]) := by
    rw [MakeDirs_statZero_ok posixSeps listDisk [] ['a', '/', 'b'] (by decide)
      (by rw [h1]; decide) (by rw [h1, e1])]
    rw [h1, e1]
    decide
  have h := (makeDirs_idempotent posixSeps listDisk [] ['a', '/', 'b']).2 [] (by rw [hfull])
  exact ⟨h.2.1, h.2.2⟩

/-- C5: for a path containing no separator character, `MakeDirs` returns
success, leaves the state unchanged, and performs no `Stat` or `MakeDir`
call (empty trace). -/
theorem makeDirs_no_sep {σ : Type} (seps : List Char) (d : Disk σ) (s : σ)
    (path : List Char) (h : ∀ c ∈ path, c ∉ seps) :
    MakeDirs seps d s path = (s, true, []) := by
  have hf : find_last_of seps path = none := find_last_of_eq_none seps path h
  exact MakeDirs_dirEmpty seps d s path (by rw [DirName, hf])

/-- Witness for `makeDirs_no_sep` at the path "file.txt". -/
theorem makeDirs_no_sep_witness :
    MakeDirs posixSeps listDisk [] ['f', 'i', 'l', 'e', '.', 't', 'x', 't'] =
      ([], true, []) :=
  makeDirs_no_sep posixSeps listDisk [] ['f', 'i', 'l', 'e', '.', 't', 'x', 't'] (by decide)

/-- C10: whenever the derived parent (`DirName`) of a path is non-empty, it
is a proper prefix of the path — some non-trivial suffix extends it back to
the path — and strictly shorter than it, so the recursion of `MakeDirs` is
bounded by the length of the original path. -/
theorem dirName_proper_prefix_of_ne_nil (seps : List Char) (path : List Char)
    (h : DirName seps path ≠ []) :
    (∃ t, DirName seps path ++ t = path) ∧ (DirName seps path).length < path.length := by
  refine ⟨?_, DirName_length_lt seps path h⟩
  cases hf : find_last_of seps path with
  | none => exact absurd (by rw [DirName, hf]) h
  | some i =>
    refine ⟨path.drop (trimSepRun seps path i), ?_⟩
    have hD : DirName seps path = path.take (trimSepRun seps path i) := by rw [DirName, hf]
    rw [hD]
    exact List.take_append_drop _ path

/-- Witness for `dirName_proper_prefix_of_ne_nil` at the path "a/b". -/
theorem dirName_proper_prefix_witness :
    (∃ t, DirName posixSeps ['a', '/', 'b'] ++ t = ['a', '/', 'b']) ∧
      (DirName posixSeps ['a', '/', 'b']).length < (['a', '/', 'b'] : List Char).length :=
  dirName_proper_prefix_of_ne_nil posixSeps ['a', '/', 'b'] (by decide)

namespace RealDiskInterface

/-- C2 (amended): when the underlying metadata call succeeds, `Stat`
returns exactly the reported modification time and emits no diagnostic;
the returned value is strictly positive iff the modification time itself
is strictly positive. -/
theorem stat_ok_returns_mtime (path : List Char) (m : Int) :
    Stat path (StatOs.ok m) = (m, []) ∧ (0 < (Stat path (StatOs.ok m)).1 ↔ 0 < m) :=
  ⟨rfl, Iff.rfl⟩

/-- Witness for `stat_ok_returns_mtime` at mtime 7. -/
theorem stat_ok_returns_mtime_witness :
    Stat ['f'] (StatOs.ok 7) = (7, []) ∧ (0 < (Stat ['f'] (StatOs.ok 7)).1 ↔ 0 < (7 : Int)) :=
  stat_ok_returns_mtime ['f'] 7

/-- C2 counterexample: a path whose metadata call succeeds with
modification time 0 (the epoch) exists on disk, yet `Stat` returns 0 —
not a strictly positive value. -/
theorem stat_ok_zero_mtime_cex :
    Stat ['f'] (StatOs.ok 0) = (0, []) ∧ ¬ 0 < (Stat ['f'] (StatOs.ok 0)).1 := by
  decide

/-- C3: `Stat` on a nonexistent path returns exactly 0 — never a negative
value — and emits no diagnostic: on POSIX when `stat` fails with `ENOENT`,
and on Windows when `GetFileAttributesEx` fails with
`ERROR_FILE_NOT_FOUND` or `ERROR_PATH_NOT_FOUND` (for a path below the
length limit). -/
theorem stat_enoent_returns_zero (path : List Char) :
    Stat path (StatOs.err ENOENT) = (0, []) ∧
      (path.length ≤ MAX_PATH →
        StatWin path (StatOs.err ERROR_FILE_NOT_FOUND) = (0, [], true) ∧
          StatWin path (StatOs.err ERROR_PATH_NOT_FOUND) = (0, [], true)) := by
  constructor
  · simp [Stat]
  · intro hlen
    refine ⟨?_, ?_⟩ <;>
      · simp only [StatWin]
        rw [if_neg (by rintro ⟨-, -, h⟩; omega)]
        simp

/-- Witness for `stat_enoent_returns_zero` at the path "f". -/
theorem stat_enoent_returns_zero_witness :
    Stat ['f'] (StatOs.err ENOENT) = (0, []) ∧
      StatWin ['f'] (StatOs.err ERROR_FILE_NOT_FOUND) = (0, [], true) :=
  ⟨(stat_enoent_returns_zero ['f']).1,
    ((stat_enoent_returns_zero ['f']).2 (by decide)).1⟩

/-- C6: `ReadFile` on a nonexistent path (the read shim reports `ENOENT`)
returns empty content and a cleared error output, whatever error message
the shim produced. -/
theorem readFile_enoent_swallowed (path : List Char) (binary : Bool) (msg : List Char) :
    ReadFile path binary (ReadOs.err ENOENT msg) = ([], []) := by
  simp [ReadFile, readPrim]

/-- Witness for `readFile_enoent_swallowed` at the path "f". -/
theorem readFile_enoent_swallowed_witness :
    ReadFile ['f'] false (ReadOs.err ENOENT ['o', 'o', 'p', 's']) = ([], []) :=
  readFile_enoent_swallowed ['f'] false ['o', 'o', 'p', 's']

/-- C7: `RemoveFile` returns 0 when the OS remove succeeds, 1 with no
diagnostic when the path does not exist (`ENOENT`), and -1 with exactly
one diagnostic on any other failure; these are the only outcomes. -/
theorem removeFile_tristate (path : List Char) :
    RemoveFile path RemoveOs.ok = (0, []) ∧
      RemoveFile path (RemoveOs.err ENOENT) = (1, []) ∧
      (∀ e : Nat, e ≠ ENOENT →
        RemoveFile path (RemoveOs.err e) = (-1, [Diag.removeFail path])) ∧
      (∀ os : RemoveOs, (RemoveFile path os).1 = 0 ∨ (RemoveFile path os).1 = 1 ∨
        (RemoveFile path os).1 = -1) := by
  refine ⟨rfl, by simp [RemoveFile], ?_, ?_⟩
  · intro e he
    simp [RemoveFile, he]
  · intro os
    cases os with
    | ok => exact Or.inl rfl
    | err e =>
      by_cases he : e = ENOENT <;> simp [RemoveFile, he]

/-- Witness for `removeFile_tristate`: errno 13 (permission denied) maps
to -1 with one diagnostic. -/
theorem removeFile_tristate_witness :
    RemoveFile ['p'] (RemoveOs.err 13) = (-1, [Diag.removeFail ['p']]) :=
  (removeFile_tristate ['p']).2.2.1 13 (by decide)

/-- C8: on the platform enforcing the path-length limit, a non-empty path
longer than `MAX_PATH` that does not begin with the extended-path escape
marker makes `Stat` return -1 with exactly one diagnostic, without
invoking the OS metadata call (third component `false`), whatever that
call would have returned. -/
theorem statWin_overlong (path : List Char) (os : StatOs)
    (h1 : path ≠ []) (h2 : path.headD ' ' ≠ '\\') (h3 : MAX_PATH < path.length) :
    StatWin path os = (-1, [Diag.statTooLong path], false) := by
  simp only [StatWin]
  rw [if_pos ⟨h1, h2, h3⟩]

/-- Witness for `statWin_overlong`: a 261-character path. -/
theorem statWin_overlong_witness :
    StatWin (List.replicate 261 'a') (StatOs.err 5) =
      (-1, [Diag.statTooLong (List.replicate 261 'a')], false) :=
  statWin_overlong (List.replicate 261 'a') (StatOs.err 5)
    (by rw [show (261 : Nat) = 260 + 1 from rfl, List.replicate_succ]
        exact List.cons_ne_nil _ _)
    (by rw [show (261 : Nat) = 260 + 1 from rfl, List.replicate_succ]
        decide)
    (by rw [List.length_replicate]
        norm_num [MAX_PATH])

/-- C9: `WriteFile` fails at the first failing step, emitting that step's
single diagnostic — open failure, then short write, then close failure —
and returns success (with no diagnostic) exactly when the open succeeds,
the full content length is written, and the close succeeds. -/
theorem writeFile_first_failure (path contents : List Char)
    (openOk : Bool) (written : Nat) (closeOk : Bool) :
    (openOk = false →
      WriteFile path contents openOk written closeOk = (false, [Diag.writeOpenFail path])) ∧
    (openOk = true → written < contents.length →
      WriteFile path contents openOk written closeOk = (false, [Diag.writeShortFail path])) ∧
    (openOk = true → contents.length ≤ written → closeOk = false →
      WriteFile path contents openOk written closeOk = (false, [Diag.writeCloseFail path])) ∧
    (WriteFile path contents openOk written closeOk = (true, []) ↔
      openOk = true ∧ contents.length ≤ written ∧ closeOk = true) := by
  refine ⟨?_, ?_, ?_, ?_⟩
  · intro h
    simp [WriteFile, h]
  · intro h hw
    simp [WriteFile, h, hw]
  · intro h hw hc
    simp [WriteFile, h, hc, Nat.not_lt.mpr hw]
  · cases openOk with
    | false => simp [WriteFile]
    | true =>
      by_cases hw : written < contents.length
      · simp [WriteFile, hw]
      · cases closeOk with
        | false => simp [WriteFile, hw]
        | true => simp [WriteFile, hw, Nat.not_lt.mp hw]

/-- Witness for `writeFile_first_failure`: a failing open. -/
theorem writeFile_first_failure_witness :
    WriteFile ['p'] ['x'] false 0 true = (false, [Diag.writeOpenFail ['p']]) :=
  (writeFile_first_failure ['p'] ['x'] false 0 true).1 rfl

end RealDiskInterface
